import Mathlib

/-!
Verification of the llmstxt_architect incremental crawl-summarize-merge
pipeline (loader.py, summarizer.py, main.py) via a shallow embedding.

Conventions of the embedding:
* Python strings are Lean `String`s; helpers such as `rstrip('/')`,
  `str.lower()`, `str.strip()`, `str.replace` are modelled over `String.data`
  (ASCII-faithful, which covers the URL/manifest domain of the program).
* Python dicts (which preserve insertion order) are association lists
  `List (String × key)` with first-match lookup and update-in-place insert.
* The directory state of the summaries output directory is an explicit
  listing `List (String × String)` of (filename, file content) pairs, in the
  enumeration order that `os.listdir` happens to return.
* The LLM client and the file system writes are fallible collaborators,
  passed in as functions (`llm : String → Option String`, where `none`
  models a raised exception, and write-success flags).
-/

/-- Python's default whitespace class for `\s` and `str.strip()`:
space, tab, newline, carriage return, vertical tab, form feed. -/
def pyIsSpace (c : Char) : Bool :=
  c == ' ' || c == '\t' || c == '\n' || c == '\r' || c == '\x0b' || c == '\x0c'

/-- Python `url.rstrip('/')`: remove every trailing '/' character
(loader.py line 307, summarizer.py lines 89, 158, 283). -/
def rstripSlash (s : String) : String :=
  String.mk ((s.data.reverse.dropWhile (fun c => c == '/')).reverse)

/-- ASCII case folding of one character, as Python `str.lower()` acts on the
ASCII range. -/
def pyToLower (c : Char) : Char :=
  if 'A' ≤ c ∧ c ≤ 'Z' then Char.ofNat (c.toNat + 32) else c

/-- Python `s.lower()` (ASCII fragment). -/
def pyLower (s : String) : String :=
  String.mk (s.data.map pyToLower)

/-- loader.py `normalize_url` (lines 296-314): remove trailing slash, then
convert to lowercase. -/
def normalize_url (url : String) : String :=
  pyLower (rstripSlash url)

/-- Python `str.strip()`: drop leading and trailing whitespace. -/
def pyStrip (s : String) : String :=
  String.mk (((s.data.dropWhile pyIsSpace).reverse.dropWhile pyIsSpace).reverse)

/-- Replace every non-overlapping occurrence of `pat` by `rep`, scanning left
to right, over character lists; the semantics of Python `str.replace` for a
nonempty pattern. The `fuel` argument only makes the recursion structural:
every step consumes at least one input character, so `fuel = length + 1`
always suffices. -/
def replaceAux (pat rep : List Char) : Nat → List Char → List Char
  | 0, cs => cs
  | _ + 1, [] => []
  | fuel + 1, c :: rest =>
    if pat ≠ [] ∧ pat.isPrefixOf (c :: rest) then
      rep ++ replaceAux pat rep fuel ((c :: rest).drop pat.length)
    else
      c :: replaceAux pat rep fuel rest

/-- Python `s.replace(pat, rep)` for nonempty `pat`. -/
def pyReplace (s pat rep : String) : String :=
  String.mk (replaceAux pat.data rep.data (s.data.length + 1) s.data)

/-- Python `url.split('/')[-1]`: the substring after the last '/'
(empty when the url ends in '/'). -/
def lastPathSegment (url : String) : String :=
  String.mk ((url.data.reverse.takeWhile (fun c => c != '/')).reverse)

/-- First-match lookup in an insertion-ordered association list
(Python `d[k]` / `k in d`). -/
def dictFind : List (String × String) → String → Option String
  | [], _ => none
  | (k', v) :: rest, k => if k' = k then some v else dictFind rest k

/-- Python `d[k] = v` on an insertion-ordered dict: overwrite in place if the
key is present, else append at the end. -/
def dictInsertOver : List (String × String) → String → String → List (String × String)
  | [], k, v => [(k, v)]
  | (k', v') :: rest, k, v =>
    if k' = k then (k', v) :: rest else (k', v') :: dictInsertOver rest k v

/-- Python `if k not in d: d[k] = v`. -/
def dictInsertIfAbsent (d : List (String × String)) (k v : String) : List (String × String) :=
  match dictFind d k with
  | some _ => d
  | none => dictInsertOver d k v

/-- Append `v` to the bucket of key `k` in an insertion-ordered multi-dict
(Python `d.setdefault(k, []).append(v)` shape used in summarizer.py
lines 295-297). -/
def dictAppend : List (String × List String) → String → String → List (String × List String)
  | [], k, v => [(k, [v])]
  | (k', vs) :: rest, k, v =>
    if k' = k then (k', vs ++ [v]) :: rest else (k', vs) :: dictAppend rest k v

/-! The manifest entry pattern.

All three modules compile the same regular expression
`\[(.*?)\]\((https?://[^\s)]+)\)` and use `search` (leftmost match) on it.
The functions below implement exactly that matcher over character lists:
a match starts at a '[', the lazily-matched title may contain any character
except a newline, and the URL group is `https?://` followed by a maximal
nonempty run of characters that are neither whitespace nor ')' and that is
immediately followed by ')'. -/

/-- Character class `[^\s)]` of the URL group. -/
def isUrlChar (c : Char) : Bool :=
  !(pyIsSpace c) && c != ')'

/-- Match `https?://` at the head of the character list, returning the scheme
characters and the remainder. -/
def stripScheme (cs : List Char) : Option (List Char × List Char) :=
  if "https://".data.isPrefixOf cs then some ("https://".data, cs.drop 8)
  else if "http://".data.isPrefixOf cs then some ("http://".data, cs.drop 7)
  else none

/-- Match `\((https?://[^\s)]+)\)` at the head of the character list,
returning the URL group on success. -/
def matchParen (cs : List Char) : Option String :=
  match cs with
  | '(' :: rest =>
    match stripScheme rest with
    | some (scheme, after) =>
      let run := after.takeWhile isUrlChar
      if run.isEmpty then none
      else
        match after.dropWhile isUrlChar with
        | ')' :: _ => some (String.mk (scheme ++ run))
        | _ => none
    | none => none
  | _ => none

/-- Lazy scan for the closing `](` of an entry after an opening '[':
`acc` holds the (reversed) title characters consumed so far; at each ']' the
URL tail is attempted, and on failure the ']' joins the title (backtracking
of the lazy `.*?`); a newline fails the whole attempt since `.` does not
match newlines. -/
def matchAfterBracket : List Char → List Char → Option (String × String)
  | _, [] => none
  | acc, c :: rest =>
    if c = '\n' then none
    else
      match (if c = ']' then matchParen rest else none) with
      | some url => some (String.mk acc.reverse, url)
      | none => matchAfterBracket (c :: acc) rest

/-- Leftmost search for the entry pattern: try each position in order; an
attempt can only start at '['. Returns (title, url) of the first match. -/
def searchEntry : List Char → Option (String × String)
  | [] => none
  | c :: rest =>
    if c = '[' then
      match matchAfterBracket [] rest with
      | some r => some r
      | none => searchEntry rest
    else searchEntry rest

/-- re.search of the shared pattern over a string, yielding
(group 1 = title, group 2 = url) of the first match, as used by
loader.py line 235/355, summarizer.py lines 116, 269, 353. -/
def url_search (s : String) : Option (String × String) :=
  searchEntry s.data

/-- Python `s.startswith(pre)`. -/
def pyStartsWith (s pre : String) : Bool :=
  pre.data.isPrefixOf s.data

/-- Python `s.endswith(suf)`. -/
def pyEndsWith (s suf : String) : Bool :=
  suf.data.isSuffixOf s.data

/-- Strict lexicographic comparison of character lists by code point, the
order Python uses for `sorted` on strings. -/
def charListLt : List Char → List Char → Bool
  | [], [] => false
  | [], _ :: _ => true
  | _ :: _, [] => false
  | a :: as, b :: bs => if a < b then true else if b < a then false else charListLt as bs

/-- Python `a < b` on strings (lexicographic by code point). -/
def strLt (a b : String) : Bool :=
  charListLt a.data b.data

/-- summarizer.py `Summarizer._load_blacklist` (lines 78-93): strip each
line, drop empty lines and `#` comments, then remove trailing slashes. -/
def load_blacklist (lines : List String) : List String :=
  (((lines.map pyStrip).filter (fun u => !u.data.isEmpty && !(pyStartsWith u "#"))).map rstripSlash)

/-- A loaded document as produced by loader.py: `metadata['source']` is the
URL, `metadata.get('title')` may be absent, `page_content` is the extracted
text. -/
structure Doc where
  source : String
  title : Option String
  page_content : String
deriving DecidableEq

/-- The mutable state a `Summarizer` instance owns, together with the
on-disk state of its output directory.

`summarized_urls` is the in-memory log dict, `diskLog` the persisted
`summarized_urls.json` contents (kept separate because `_save_log` can fail
after the in-memory dict was already updated), `files` the record files of
the output directory as (filename, content), `url_titles` the titles parsed
from an existing manifest.  `hasFileStructureAttr` models
`hasattr(self, 'file_structure')`: nothing in the repository ever assigns
`self.file_structure`, so every state reachable from the constructor has it
`false`. -/
structure SummarizerState where
  blacklisted_urls : List String
  summarized_urls : List (String × String)
  files : List (String × String)
  diskLog : List (String × String)
  url_titles : List (String × String)
  existing_llms_file : Option String
  hasFileStructureAttr : Bool
deriving DecidableEq

/-- summarizer.py `Summarizer.__init__` (lines 16-58): load the log and the
blacklist; `self.file_structure` is never set here nor anywhere else. -/
def mkSummarizerState (blacklistLines : List String) (diskLog : List (String × String))
    (files : List (String × String)) (url_titles : List (String × String))
    (existing : Option String) : SummarizerState :=
  { blacklisted_urls := load_blacklist blacklistLines
    summarized_urls := diskLog
    files := files
    diskLog := diskLog
    url_titles := url_titles
    existing_llms_file := existing
    hasFileStructureAttr := false }

/-- summarizer.py `Summarizer._get_summary_filename` (lines 100-108):
`urlparse(url).netloc + urlparse(url).path` with '/' replaced by '_',
suffixed with `.txt` if not already.  For an absolute http(s) URL,
netloc+path is the text after the scheme up to any '?' or '#'. -/
def get_summary_filename (url : String) : String :=
  let rest :=
    if pyStartsWith url "https://" then String.mk (url.data.drop 8)
    else if pyStartsWith url "http://" then String.mk (url.data.drop 7)
    else url
  let netpath := String.mk (rest.data.takeWhile (fun c => c != '?' && c != '#'))
  let filename := pyReplace netpath "/" "_"
  if pyEndsWith filename ".txt" then filename else filename ++ ".txt"

/-- summarizer.py lines 158-161: the blacklist test normalizes the URL by
removing trailing slashes only (no case folding) and tests list membership. -/
def blacklistHit (bl : List String) (url : String) : Bool :=
  bl.contains (rstripSlash url)

/-- summarizer.py lines 193-198: the title previously known from an
existing manifest takes priority, then the document title, then the URL's
last path segment. -/
def resolveTitle (st : SummarizerState) (doc : Doc) : String :=
  match dictFind st.url_titles doc.source with
  | some t => t
  | none =>
    match doc.title with
    | some t => t
    | none => lastPathSegment doc.source

/-- summarizer.py lines 200-202: collapse the model output's newlines into
spaces, strip it, and format the manifest entry line
(title, url, cleaned summary, two trailing newlines). -/
def formattedSummary (st : SummarizerState) (doc : Doc) (summary : String) : String :=
  "[" ++ resolveTitle st doc ++ "](" ++ doc.source ++ "): " ++
    pyStrip (pyReplace (pyReplace summary "\n\n" " ") "\n" " ") ++ "\n\n"

/-- summarizer.py `Summarizer.summarize_document` (lines 145-217).

Collaborators are explicit: `llm content` is the model call on the document
content (`none` models a raised exception), `writeOk filename` tells whether
the record-file write succeeds, `saveLogOk` whether the `_save_log` write
succeeds (all three sit inside the same `try`).  Returns the new state, the
value returned to the caller (`none` for skip/failure), and whether the
model was invoked. -/
def summarize_document (llm : String → Option String) (writeOk : String → Bool)
    (saveLogOk : Bool) (st : SummarizerState) (doc : Doc) :
    SummarizerState × Option String × Bool :=
  let url := doc.source
  if blacklistHit st.blacklisted_urls url then (st, none, false)
  else
    match dictFind st.summarized_urls url with
    | some filename =>
      match dictFind st.files filename with
      | some content => (st, some content, false)
      | none => (st, none, false)
    | none =>
      match llm doc.page_content with
      | none => (st, none, true)
      | some summary =>
        let formatted_summary := formattedSummary st doc summary
        let filename := get_summary_filename url
        if writeOk filename then
          let files' := dictInsertOver st.files filename formatted_summary
          let log' := dictInsertOver st.summarized_urls url filename
          if saveLogOk then
            ({ st with files := files', summarized_urls := log', diskLog := log' },
             some formatted_summary, true)
          else
            ({ st with files := files', summarized_urls := log' }, none, true)
        else (st, none, true)

/-- summarizer.py line 230: `preserve_structure` is true iff an existing
llms file was given and `self.file_structure` is set (which never happens). -/
def preserve_structure (st : SummarizerState) : Bool :=
  st.existing_llms_file.isSome && st.hasFileStructureAttr

/-- Loop body of summarizer.py `Summarizer.summarize_all` (lines 219-255):
each non-null summary is appended, and whenever the accumulated count is a
multiple of five a checkpoint merge is emitted into the temporary manifest.
A checkpoint event records (count so far, whether the structure-preserving
strategy was used). -/
def summarizeAllGo (llm : String → Option String) (writeOk : String → Bool)
    (saveLogOk : String → Bool) :
    SummarizerState → List String → List (Nat × Bool) → List Doc →
      SummarizerState × List String × List (Nat × Bool)
  | st, summaries, checkpoints, [] => (st, summaries, checkpoints)
  | st, summaries, checkpoints, doc :: rest =>
    let r := summarize_document llm writeOk (saveLogOk doc.source) st doc
    match r.2.1 with
    | some s =>
      let summaries' := summaries ++ [s]
      let checkpoints' :=
        if summaries'.length % 5 = 0 then checkpoints ++ [(summaries'.length, preserve_structure st)]
        else checkpoints
      summarizeAllGo llm writeOk saveLogOk r.1 summaries' checkpoints' rest
    | none => summarizeAllGo llm writeOk saveLogOk r.1 summaries checkpoints rest

/-- summarizer.py `Summarizer.summarize_all`, starting from an empty
summary list. -/
def summarize_all (llm : String → Option String) (writeOk : String → Bool)
    (saveLogOk : String → Bool) (st : SummarizerState) (docs : List Doc) :
    SummarizerState × List String × List (Nat × Bool) :=
  summarizeAllGo llm writeOk saveLogOk st [] [] docs

/-- Deduplication performed by loader.py `load_urls_directly`
(lines 100-124): URLs are kept in first-seen order, a URL being skipped iff
its `normalize_url` key was already seen (the batching into groups of ten
only chunks this sequence, it does not change any keep/skip decision).
The first argument is the set of already-processed normalized keys. -/
def loaderDedup : List String → List String → List String
  | _, [] => []
  | processed, url :: rest =>
    if processed.contains (normalize_url url) then loaderDedup processed rest
    else url :: loaderDedup (normalize_url url :: processed) rest

/-- The scan filter both merge strategies apply to the output directory
(summarizer.py lines 272-273 and 364-365): keep files whose name ends in
`.txt` and differs from the output file's base name. -/
def scanFilter (outBase : String) (fc : String × String) : Bool :=
  pyEndsWith fc.1 ".txt" && fc.1 != outBase

/-- summarizer.py `generate_llms_txt` lines 266-286: read every scanned
record file, extract its URL via the entry pattern (falling back to the
filename), and pair the trailing-slash-normalized URL with the content. -/
def collectEntries (listing : List (String × String)) (outBase : String) :
    List (String × String) :=
  (listing.filter (scanFilter outBase)).map (fun fc =>
    let url :=
      match url_search fc.2 with
      | some r => r.2
      | none => fc.1
    (rstripSlash url, fc.2))

/-- summarizer.py `generate_llms_txt` lines 288-297: group contents by
normalized URL in first-seen key order, skipping blacklisted URLs. -/
def groupEntries (entries : List (String × String)) (bl : List String) :
    List (String × List String) :=
  entries.foldl (fun d e => if bl.contains e.1 then d else dictAppend d e.1 e.2) []

/-- One step of a stable insertion realizing Python's stable
`contents.sort(key=len, reverse=True)`: a new element goes after every
element of length greater or equal. -/
def insDesc (c : String) : List String → List String
  | [] => [c]
  | d :: rest => if d.length ≥ c.length then d :: insDesc c rest else c :: d :: rest

/-- Stable sort by length, descending (summarizer.py line 304). -/
def sortByLenDesc (l : List String) : List String :=
  l.foldl (fun acc c => insDesc c acc) []

/-- summarizer.py line 306: `contents[0]` after the descending sort — the
first listed content of maximal length. -/
def bestContent (cs : List String) : String :=
  (sortByLenDesc cs).headD ""

/-- summarizer.py lines 299-306: one entry per normalized URL, keeping the
longest content of each group. -/
def uniqueEntries (listing : List (String × String)) (outBase : String)
    (bl : List String) : List (String × String) :=
  (groupEntries (collectEntries listing outBase) bl).map (fun g => (g.1, bestContent g.2))

/-- summarizer.py lines 308-315: drop entries whose content is byte-equal to
an already kept entry's content (`seen` accumulates kept contents). -/
def dedupContent : List (String × String) → List String → List (String × String)
  | [], _ => []
  | (u, c) :: rest, seen =>
    if seen.contains c then dedupContent rest seen
    else (u, c) :: dedupContent rest (c :: seen)

/-- One step of a stable insertion realizing Python's
`sorted(final_entries, key=lambda x: x[0])`: a new entry goes after every
entry whose key is not greater. -/
def insByKey (p : String × String) : List (String × String) → List (String × String)
  | [] => [p]
  | q :: rest => if strLt p.1 q.1 then p :: q :: rest else q :: insByKey p rest

/-- Stable sort of entries by ascending normalized URL
(summarizer.py line 318). -/
def sortEntriesByUrl (l : List (String × String)) : List (String × String) :=
  l.foldl (fun acc p => insByKey p acc) []

/-- The (normalized URL, content) pairs written by Merge Strategy A, in
output order (summarizer.py lines 266-318). -/
def strategyA_entries (listing : List (String × String)) (outBase : String)
    (bl : List String) : List (String × String) :=
  sortEntriesByUrl (dedupContent (uniqueEntries listing outBase bl) [])

/-- summarizer.py `Summarizer.generate_llms_txt` (lines 257-341): the full
content written to the output file, i.e. the selected record contents
concatenated in sorted order.  The `summaries` parameter of the source
method is unused by the merge: the output is built from the scanned record
files alone. -/
def generate_llms_txt (summaries : List String) (listing : List (String × String))
    (outBase : String) (bl : List String) : String :=
  let _ := summaries
  String.join ((strategyA_entries listing outBase bl).map Prod.snd)

/-- summarizer.py `generate_structured_llms_txt` lines 352-373: the URL →
summary map, fed first by this run's summaries (later ones overwriting
earlier ones), then by the scanned record files (never overwriting run
summaries; both stripped). -/
def buildUrlToSummary (summaries : List String) (listing : List (String × String))
    (outBase : String) : List (String × String) :=
  let d1 := summaries.foldl (fun d s =>
    match url_search s with
    | some r => dictInsertOver d r.2 (pyStrip s)
    | none => d) []
  (listing.filter (scanFilter outBase)).foldl (fun d fc =>
    match url_search fc.2 with
    | some r => dictInsertIfAbsent d r.2 (pyStrip fc.2)
    | none => d) d1

/-- summarizer.py lines 380-395, one line of the structure-preserving walk:
an entry line (one the pattern matches) whose URL is in the map is replaced
by the mapped summary plus a newline; every other line is kept verbatim. -/
def patchLine (m : List (String × String)) (line : String) : String :=
  match url_search line with
  | some r =>
    match dictFind m r.2 with
    | some s => s ++ "\n"
    | none => line
  | none => line

/-- summarizer.py lines 376-395: the patched line sequence, one output line
per skeleton line, in order. -/
def patchLines (file_structure : List String) (m : List (String × String)) :
    List String :=
  file_structure.map (patchLine m)

/-- summarizer.py `Summarizer.generate_structured_llms_txt` (lines 343-399):
the full content written to the output file. -/
def generate_structured_llms_txt (summaries : List String)
    (listing : List (String × String)) (outBase : String)
    (file_structure : List String) : String :=
  String.join (patchLines file_structure (buildUrlToSummary summaries listing outBase))

/-- How the summarization loop of main.py `generate_llms_txt` (lines
120-128) can terminate: `summarize_all` returns its summary list; it raises
an `Exception` (caught by the `except Exception` arm, which sets
`summaries = []`); or it is hit by an external interrupt such as
`KeyboardInterrupt`, which `except Exception` does not catch, so the local
variable `summaries` is never assigned. -/
inductive LoopOutcome where
  | completed (summaries : List String)
  | exnFailure
  | interrupted
deriving DecidableEq

/-- main.py line 134: the final merge uses the structure-preserving strategy
iff `update_descriptions_only` is set and the parsed structure is truthy
(present and a nonempty line list). -/
def finalUsesStructured (update_descriptions_only : Bool)
    (existing_file_structure : Option (List String)) : Bool :=
  match existing_file_structure with
  | some fs => update_descriptions_only && !fs.isEmpty
  | none => false

/-- The `try/except Exception/finally` of main.py `generate_llms_txt`
(lines 119-151), reduced to which manifest content the `finally` block
writes.  On normal completion the merge runs with the returned summaries;
on a caught exception it runs with `summaries = []`; on an external
interrupt `summaries` is unbound, so line 135/141's reference to it raises
`UnboundLocalError` inside the `finally` block and no merge is executed
(result `none`). -/
def main_generate_llms_txt (outcome : LoopOutcome) (listing : List (String × String))
    (outBase : String) (bl : List String) (update_descriptions_only : Bool)
    (existing_file_structure : Option (List String)) : Option String :=
  let mergeWith := fun (summaries : List String) =>
    if finalUsesStructured update_descriptions_only existing_file_structure then
      generate_structured_llms_txt summaries listing outBase
        (existing_file_structure.getD [])
    else
      generate_llms_txt summaries listing outBase bl
  match outcome with
  | .completed summaries => some (mergeWith summaries)
  | .exnFailure => some (mergeWith [])
  | .interrupted => none

/-! Basic lemmas about the dictionary and ordering helpers. -/

theorem dictFind_insertOver_self (d : List (String × String)) (k v : String) :
    dictFind (dictInsertOver d k v) k = some v := by
  induction d with
  | nil => simp [dictInsertOver, dictFind]
  | cons p rest ih =>
    obtain ⟨k', v'⟩ := p
    by_cases h : k' = k
    · simp [dictInsertOver, dictFind, h]
    · simp [dictInsertOver, dictFind, h, ih]

theorem charListLt_asymm : ∀ x y : List Char,
    charListLt x y = true → charListLt y x = false := by
  intro x
  induction x with
  | nil =>
    intro y h
    cases y with
    | nil => simp [charListLt] at h
    | cons b bs => simp [charListLt]
  | cons a as ih =>
    intro y h
    cases y with
    | nil => simp [charListLt] at h
    | cons b bs =>
      simp only [charListLt] at h ⊢
      by_cases hab : a < b
      · have hba : ¬ b < a := lt_asymm hab
        simp [hab, hba]
      · by_cases hba : b < a
        · simp [hab, hba] at h
        · simp only [if_neg hab, if_neg hba] at h ⊢
          exact ih bs h

theorem charListLt_conn : ∀ x y : List Char,
    charListLt x y = false → charListLt y x = false → x = y := by
  intro x
  induction x with
  | nil =>
    intro y h1 _
    cases y with
    | nil => rfl
    | cons b bs => simp [charListLt] at h1
  | cons a as ih =>
    intro y h1 h2
    cases y with
    | nil => simp [charListLt] at h2
    | cons b bs =>
      simp only [charListLt] at h1 h2
      by_cases hab : a < b
      · simp [hab] at h1
      · by_cases hba : b < a
        · simp [hab, hba] at h2
        · have hk : a = b := le_antisymm (not_lt.mp hba) (not_lt.mp hab)
          simp only [if_neg hab, if_neg hba] at h1
          simp only [if_neg hba, if_neg hab] at h2
          rw [hk, ih bs h1 h2]

theorem charListLt_trans : ∀ x y z : List Char,
    charListLt x y = true → charListLt y z = true → charListLt x z = true := by
  intro x
  induction x with
  | nil =>
    intro y z h1 h2
    cases y with
    | nil => simp [charListLt] at h1
    | cons b bs =>
      cases z with
      | nil => simp [charListLt] at h2
      | cons c cs => simp [charListLt]
  | cons a as ih =>
    intro y z h1 h2
    cases y with
    | nil => simp [charListLt] at h1
    | cons b bs =>
      cases z with
      | nil => simp [charListLt] at h2
      | cons c cs =>
        simp only [charListLt] at h1 h2 ⊢
        by_cases hab : a < b
        · by_cases hbc : b < c
          · simp [lt_trans hab hbc]
          · by_cases hcb : c < b
            · simp [hbc, hcb] at h2
            · have hbceq : b = c := le_antisymm (not_lt.mp hcb) (not_lt.mp hbc)
              simp [hbceq ▸ hab]
        · by_cases hba : b < a
          · simp [hab, hba] at h1
          · have habeq : a = b := le_antisymm (not_lt.mp hba) (not_lt.mp hab)
            simp only [if_neg hab, if_neg hba] at h1
            by_cases hbc : b < c
            · simp [habeq ▸ hbc]
            · by_cases hcb : c < b
              · simp [hbc, hcb] at h2
              · simp only [if_neg hbc, if_neg hcb] at h2
                have hac : ¬ a < c := by rw [habeq]; exact hbc
                have hca : ¬ c < a := by rw [habeq]; exact hcb
                simp only [if_neg hac, if_neg hca]
                exact ih bs cs h1 h2

theorem strLt_asymm {a b : String} (h : strLt a b = true) : strLt b a = false :=
  charListLt_asymm a.data b.data h

theorem strLt_conn {a b : String} (h1 : strLt a b = false) (h2 : strLt b a = false) :
    a = b := by
  have h := charListLt_conn a.data b.data h1 h2
  cases a; cases b; exact congrArg String.mk h

theorem strLt_trans {a b c : String} (h1 : strLt a b = true) (h2 : strLt b c = true) :
    strLt a c = true :=
  charListLt_trans a.data b.data c.data h1 h2

/-! Lemmas about the stable sorts and deduplication stages of Strategy A. -/

theorem mem_insDesc (c : String) : ∀ l (x : String), x ∈ insDesc c l → x = c ∨ x ∈ l := by
  intro l
  induction l with
  | nil => intro x hx; simp [insDesc] at hx; exact Or.inl hx
  | cons d rest ih =>
    intro x hx
    by_cases h : d.length ≥ c.length
    · simp only [insDesc, if_pos h, List.mem_cons] at hx
      rcases hx with rfl | hx
      · exact Or.inr (List.mem_cons_self _ _)
      · rcases ih x hx with rfl | hx'
        · exact Or.inl rfl
        · exact Or.inr (List.mem_cons_of_mem _ hx')
    · simp only [insDesc, if_neg h, List.mem_cons] at hx
      rcases hx with rfl | hx
      · exact Or.inl rfl
      · exact Or.inr (by simpa using hx)

theorem insDesc_perm (c : String) : ∀ l, (insDesc c l).Perm (c :: l) := by
  intro l
  induction l with
  | nil => simp [insDesc]
  | cons d rest ih =>
    by_cases h : d.length ≥ c.length
    · simp only [insDesc, if_pos h]
      exact (ih.cons d).trans (List.Perm.swap c d rest)
    · simp [insDesc, if_neg h]

theorem insDesc_sorted (c : String) : ∀ l,
    List.Pairwise (fun a b : String => b.length ≤ a.length) l →
    List.Pairwise (fun a b : String => b.length ≤ a.length) (insDesc c l) := by
  intro l
  induction l with
  | nil => intro _; simp [insDesc]
  | cons d rest ih =>
    intro hp
    rw [List.pairwise_cons] at hp
    by_cases h : d.length ≥ c.length
    · simp only [insDesc, if_pos h]
      rw [List.pairwise_cons]
      refine ⟨?_, ih hp.2⟩
      intro x hx
      rcases mem_insDesc c rest x hx with rfl | hx'
      · exact h
      · exact hp.1 x hx'
    · simp only [insDesc, if_neg h]
      rw [List.pairwise_cons]
      refine ⟨?_, List.pairwise_cons.mpr hp⟩
      intro x hx
      rcases List.mem_cons.mp hx with rfl | hx'
      · exact le_of_lt (not_le.mp h)
      · exact le_trans (hp.1 x hx') (le_of_lt (not_le.mp h))

theorem sortByLenDesc_perm_aux : ∀ (l acc : List String),
    (l.foldl (fun acc c => insDesc c acc) acc).Perm (acc ++ l) := by
  intro l
  induction l with
  | nil => intro acc; simp
  | cons c rest ih =>
    intro acc
    have h1 : (rest.foldl (fun acc c => insDesc c acc) (insDesc c acc)).Perm
        (insDesc c acc ++ rest) := ih (insDesc c acc)
    have h2 : (insDesc c acc ++ rest).Perm ((c :: acc) ++ rest) :=
      (insDesc_perm c acc).append_right rest
    have h3 : ((c :: acc) ++ rest).Perm (acc ++ c :: rest) :=
      List.perm_middle.symm
    simpa [List.foldl_cons] using (h1.trans h2).trans h3

theorem sortByLenDesc_perm (l : List String) : (sortByLenDesc l).Perm l := by
  simpa using sortByLenDesc_perm_aux l []

theorem sortByLenDesc_sorted_aux : ∀ (l acc : List String),
    List.Pairwise (fun a b : String => b.length ≤ a.length) acc →
    List.Pairwise (fun a b : String => b.length ≤ a.length)
      (l.foldl (fun acc c => insDesc c acc) acc) := by
  intro l
  induction l with
  | nil => intro acc h; simpa using h
  | cons c rest ih =>
    intro acc h
    simpa [List.foldl_cons] using ih (insDesc c acc) (insDesc_sorted c acc h)

theorem sortByLenDesc_sorted (l : List String) :
    List.Pairwise (fun a b : String => b.length ≤ a.length) (sortByLenDesc l) :=
  sortByLenDesc_sorted_aux l [] (by simp)

theorem bestContent_spec (cs : List String) (h : cs ≠ []) :
    bestContent cs ∈ cs ∧ ∀ c ∈ cs, c.length ≤ (bestContent cs).length := by
  have hperm := sortByLenDesc_perm cs
  have hsorted := sortByLenDesc_sorted cs
  cases hs : sortByLenDesc cs with
  | nil =>
    rw [hs] at hperm
    exact absurd hperm.symm.eq_nil h
  | cons b t =>
    rw [hs] at hperm hsorted
    constructor
    · have : b ∈ b :: t := List.mem_cons_self _ _
      simpa [bestContent, hs] using hperm.mem_iff.mp this
    · intro c hc
      have hc' : c ∈ b :: t := hperm.mem_iff.mpr hc
      rw [List.pairwise_cons] at hsorted
      rcases List.mem_cons.mp hc' with rfl | hct
      · simp [bestContent, hs]
      · simpa [bestContent, hs] using hsorted.1 c hct


theorem dedupContent_sublist : ∀ (l : List (String × String)) (seen : List String),
    (dedupContent l seen).Sublist l := by
  intro l
  induction l with
  | nil => intro seen; simp [dedupContent]
  | cons p rest ih =>
    intro seen
    obtain ⟨u, c⟩ := p
    by_cases h : c ∈ seen
    · simpa [dedupContent, h] using (ih seen).cons (u, c)
    · simpa [dedupContent, h] using (ih (c :: seen)).cons₂ (u, c)

theorem dedupContent_spec : ∀ (l : List (String × String)) (seen : List String),
    (∀ x ∈ dedupContent l seen, x.2 ∉ seen) ∧
    List.Pairwise (fun a b : String × String => a.2 ≠ b.2) (dedupContent l seen) := by
  intro l
  induction l with
  | nil => intro seen; simp [dedupContent]
  | cons p rest ih =>
    intro seen
    obtain ⟨u, c⟩ := p
    by_cases h : c ∈ seen
    · simpa [dedupContent, h] using ih seen
    · have ihr := ih (c :: seen)
      have hres : dedupContent ((u, c) :: rest) seen =
          (u, c) :: dedupContent rest (c :: seen) := by
        simp [dedupContent, h]
      rw [hres]
      constructor
      · intro x hx
        rcases List.mem_cons.mp hx with rfl | hx'
        · exact h
        · have := ihr.1 x hx'
          intro hxs
          exact this (List.mem_cons_of_mem _ hxs)
      · rw [List.pairwise_cons]
        refine ⟨?_, ihr.2⟩
        intro x hx
        have := ihr.1 x hx
        intro hcx
        exact this (by rw [← hcx]; exact List.mem_cons_self _ _)

theorem dedupContent_coverage : ∀ (l : List (String × String)) (seen : List String)
    (u c : String), (u, c) ∈ l →
    c ∈ seen ∨ ∃ u', (u', c) ∈ dedupContent l seen := by
  intro l
  induction l with
  | nil => intro seen u c h; simp at h
  | cons p rest ih =>
    intro seen u c hmem
    obtain ⟨u₀, c₀⟩ := p
    by_cases h : c₀ ∈ seen
    · have hres : dedupContent ((u₀, c₀) :: rest) seen = dedupContent rest seen := by
        simp [dedupContent, h]
      rw [hres]
      rcases List.mem_cons.mp hmem with heq | hx
      · left
        have h2 : c = c₀ := congrArg Prod.snd heq
        rw [h2]
        exact h
      · exact ih seen u c hx
    · have hres : dedupContent ((u₀, c₀) :: rest) seen =
          (u₀, c₀) :: dedupContent rest (c₀ :: seen) := by
        simp [dedupContent, h]
      rw [hres]
      rcases List.mem_cons.mp hmem with heq | hx
      · have h2 : c = c₀ := congrArg Prod.snd heq
        right
        exact ⟨u₀, by rw [h2]; exact List.mem_cons_self _ _⟩
      · rcases ih (c₀ :: seen) u c hx with hc | ⟨u', hu'⟩
        · rcases List.mem_cons.mp hc with hc' | hc'
          · right
            exact ⟨u₀, by rw [hc']; exact List.mem_cons_self _ _⟩
          · exact Or.inl hc'
        · exact Or.inr ⟨u', List.mem_cons_of_mem _ hu'⟩

theorem mem_insByKey (p : String × String) : ∀ l (x : String × String),
    x ∈ insByKey p l ↔ x = p ∨ x ∈ l := by
  intro l
  induction l with
  | nil => intro x; simp [insByKey]
  | cons q rest ih =>
    intro x
    by_cases h : strLt p.1 q.1
    · simp [insByKey, h, List.mem_cons]
    · simp only [insByKey, h, Bool.false_eq_true, if_false, List.mem_cons, ih x]
      tauto

theorem insByKey_perm (p : String × String) : ∀ l, (insByKey p l).Perm (p :: l) := by
  intro l
  induction l with
  | nil => simp [insByKey]
  | cons q rest ih =>
    by_cases h : strLt p.1 q.1
    · simp [insByKey, h]
    · simp only [insByKey, h, Bool.false_eq_true, if_false]
      exact (ih.cons q).trans (List.Perm.swap p q rest)

theorem insByKey_sorted (p : String × String) : ∀ l,
    List.Pairwise (fun a b : String × String => strLt b.1 a.1 = false) l →
    List.Pairwise (fun a b : String × String => strLt b.1 a.1 = false) (insByKey p l) := by
  intro l
  induction l with
  | nil => intro _; simp [insByKey]
  | cons q rest ih =>
    intro hp
    rw [List.pairwise_cons] at hp
    by_cases h : strLt p.1 q.1
    · simp only [insByKey, h, if_true]
      rw [List.pairwise_cons]
      constructor
      · intro x hx
        rcases List.mem_cons.mp hx with rfl | hx'
        · exact strLt_asymm h
        · cases hxp : strLt x.1 p.1 with
          | false => rfl
          | true =>
            have hxq : strLt x.1 q.1 = true := strLt_trans hxp h
            rw [hp.1 x hx'] at hxq
            exact absurd hxq (by simp)
      · exact List.pairwise_cons.mpr hp
    · simp only [insByKey, h, Bool.false_eq_true, if_false]
      rw [List.pairwise_cons]
      constructor
      · intro x hx
        rcases (mem_insByKey p rest x).mp hx with rfl | hx'
        · cases hb : strLt x.1 q.1 with
          | false => rfl
          | true => exact absurd hb h
        · exact hp.1 x hx'
      · exact ih hp.2

theorem sortEntriesByUrl_perm_aux : ∀ (l acc : List (String × String)),
    (l.foldl (fun acc p => insByKey p acc) acc).Perm (acc ++ l) := by
  intro l
  induction l with
  | nil => intro acc; simp
  | cons p rest ih =>
    intro acc
    have h1 := ih (insByKey p acc)
    have h2 : (insByKey p acc ++ rest).Perm ((p :: acc) ++ rest) :=
      (insByKey_perm p acc).append_right rest
    have h3 : ((p :: acc) ++ rest).Perm (acc ++ p :: rest) := List.perm_middle.symm
    simpa [List.foldl_cons] using (h1.trans h2).trans h3

theorem sortEntriesByUrl_perm (l : List (String × String)) :
    (sortEntriesByUrl l).Perm l := by
  simpa using sortEntriesByUrl_perm_aux l []

theorem sortEntriesByUrl_sorted_aux : ∀ (l acc : List (String × String)),
    List.Pairwise (fun a b : String × String => strLt b.1 a.1 = false) acc →
    List.Pairwise (fun a b : String × String => strLt b.1 a.1 = false)
      (l.foldl (fun acc p => insByKey p acc) acc) := by
  intro l
  induction l with
  | nil => intro acc h; simpa using h
  | cons p rest ih =>
    intro acc h
    simpa [List.foldl_cons] using ih (insByKey p acc) (insByKey_sorted p acc h)

theorem sortEntriesByUrl_sorted (l : List (String × String)) :
    List.Pairwise (fun a b : String × String => strLt b.1 a.1 = false)
      (sortEntriesByUrl l) :=
  sortEntriesByUrl_sorted_aux l [] (by simp)

/-! Invariants of the grouping stage of Strategy A. -/

theorem mem_fst_dictAppend : ∀ (d : List (String × List String)) (k v x : String),
    x ∈ (dictAppend d k v).map Prod.fst → x = k ∨ x ∈ d.map Prod.fst := by
  intro d
  induction d with
  | nil => intro k v x hx; simpa [dictAppend] using hx
  | cons q rest ih =>
    intro k v x hx
    obtain ⟨k', vs⟩ := q
    by_cases h : k' = k
    · subst h
      have hd : dictAppend ((k', vs) :: rest) k' v = (k', vs ++ [v]) :: rest := by
        simp only [dictAppend]
        exact if_pos trivial
      rw [hd] at hx
      simp only [List.map_cons, List.mem_cons] at hx ⊢
      tauto
    · simp only [dictAppend, if_neg h, List.map_cons, List.mem_cons] at hx ⊢
      rcases hx with rfl | hx'
      · exact Or.inr (Or.inl rfl)
      · rcases ih k v x hx' with hk | hm
        · exact Or.inl hk
        · exact Or.inr (Or.inr hm)

theorem dictAppend_buckets_ne_nil : ∀ (d : List (String × List String)) (k v : String),
    (∀ g ∈ d, g.2 ≠ []) → ∀ g ∈ dictAppend d k v, g.2 ≠ [] := by
  intro d
  induction d with
  | nil =>
    intro k v _ g hg
    simp only [dictAppend, List.mem_singleton] at hg
    subst hg
    simp
  | cons q rest ih =>
    intro k v hd g hg
    obtain ⟨k', vs⟩ := q
    by_cases h : k' = k
    · simp only [dictAppend, if_pos h, List.mem_cons] at hg
      rcases hg with rfl | hg'
      · simp
      · exact hd g (List.mem_cons_of_mem _ hg')
    · simp only [dictAppend, if_neg h, List.mem_cons] at hg
      rcases hg with rfl | hg'
      · exact hd _ (List.mem_cons_self _ _)
      · exact ih k v (fun g' hg' => hd g' (List.mem_cons_of_mem _ hg')) g hg'

theorem dictAppend_keys_nodup : ∀ (d : List (String × List String)) (k v : String),
    (d.map Prod.fst).Nodup → ((dictAppend d k v).map Prod.fst).Nodup := by
  intro d
  induction d with
  | nil => intro k v _; simp [dictAppend]
  | cons q rest ih =>
    intro k v hd
    obtain ⟨k', vs⟩ := q
    simp only [List.map_cons, List.nodup_cons] at hd
    by_cases h : k' = k
    · simp only [dictAppend, if_pos h, List.map_cons, List.nodup_cons]
      exact hd
    · simp only [dictAppend, if_neg h, List.map_cons, List.nodup_cons]
      constructor
      · intro hc
        rcases mem_fst_dictAppend rest k v k' hc with rfl | hm
        · exact h rfl
        · exact hd.1 hm
      · exact ih k v hd.2

theorem groupEntries_aux_spec : ∀ (entries : List (String × String)) (bl : List String)
    (d : List (String × List String)),
    (∀ g ∈ d, g.2 ≠ []) → (∀ g ∈ d, g.1 ∉ bl) → (d.map Prod.fst).Nodup →
    (∀ g ∈ entries.foldl
        (fun d e => if bl.contains e.1 then d else dictAppend d e.1 e.2) d,
      g.2 ≠ [] ∧ g.1 ∉ bl) ∧
    ((entries.foldl
        (fun d e => if bl.contains e.1 then d else dictAppend d e.1 e.2) d).map
      Prod.fst).Nodup := by
  intro entries
  induction entries with
  | nil =>
    intro bl d h1 h2 h3
    exact ⟨fun g hg => ⟨h1 g hg, h2 g hg⟩, h3⟩
  | cons e rest ih =>
    intro bl d h1 h2 h3
    by_cases hbl : e.1 ∈ bl
    · simpa [List.foldl_cons, hbl] using ih bl d h1 h2 h3
    · have step : (if bl.contains e.1 then d else dictAppend d e.1 e.2) =
          dictAppend d e.1 e.2 := by simp [hbl]
      rw [List.foldl_cons, step]
      refine ih bl (dictAppend d e.1 e.2) (dictAppend_buckets_ne_nil d e.1 e.2 h1) ?_
        (dictAppend_keys_nodup d e.1 e.2 h3)
      intro g hg
      have hk : g.1 ∈ (dictAppend d e.1 e.2).map Prod.fst :=
        List.mem_map.mpr ⟨g, hg, rfl⟩
      rcases mem_fst_dictAppend d e.1 e.2 g.1 hk with heq | hm
      · rw [heq]; exact hbl
      · rcases List.mem_map.mp hm with ⟨g', hg', hfst⟩
        rw [← hfst]
        exact h2 g' hg'

theorem groupEntries_spec (entries : List (String × String)) (bl : List String) :
    (∀ g ∈ groupEntries entries bl, g.2 ≠ [] ∧ g.1 ∉ bl) ∧
    ((groupEntries entries bl).map Prod.fst).Nodup := by
  simpa [groupEntries] using groupEntries_aux_spec entries bl [] (by simp) (by simp) (by simp)

/-! Case-by-case behavior of `summarize_document`. -/

theorem summarize_document_blacklisted (llm : String → Option String)
    (writeOk : String → Bool) (saveLogOk : Bool) (st : SummarizerState) (doc : Doc)
    (h : blacklistHit st.blacklisted_urls doc.source = true) :
    summarize_document llm writeOk saveLogOk st doc = (st, none, false) := by
  simp [summarize_document, h]

theorem summarize_document_cacheHit (llm : String → Option String)
    (writeOk : String → Bool) (saveLogOk : Bool) (st : SummarizerState) (doc : Doc)
    (fname content : String)
    (hb : blacklistHit st.blacklisted_urls doc.source = false)
    (hl : dictFind st.summarized_urls doc.source = some fname)
    (hf : dictFind st.files fname = some content) :
    summarize_document llm writeOk saveLogOk st doc = (st, some content, false) := by
  simp [summarize_document, hb, hl, hf]

theorem summarize_document_fileMissing (llm : String → Option String)
    (writeOk : String → Bool) (saveLogOk : Bool) (st : SummarizerState) (doc : Doc)
    (fname : String)
    (hb : blacklistHit st.blacklisted_urls doc.source = false)
    (hl : dictFind st.summarized_urls doc.source = some fname)
    (hf : dictFind st.files fname = none) :
    summarize_document llm writeOk saveLogOk st doc = (st, none, false) := by
  simp [summarize_document, hb, hl, hf]

theorem summarize_document_llmFail (llm : String → Option String)
    (writeOk : String → Bool) (saveLogOk : Bool) (st : SummarizerState) (doc : Doc)
    (hb : blacklistHit st.blacklisted_urls doc.source = false)
    (hl : dictFind st.summarized_urls doc.source = none)
    (hm : llm doc.page_content = none) :
    summarize_document llm writeOk saveLogOk st doc = (st, none, true) := by
  simp [summarize_document, hb, hl, hm]

theorem summarize_document_writeFail (llm : String → Option String)
    (writeOk : String → Bool) (saveLogOk : Bool) (st : SummarizerState) (doc : Doc)
    (summary : String)
    (hb : blacklistHit st.blacklisted_urls doc.source = false)
    (hl : dictFind st.summarized_urls doc.source = none)
    (hm : llm doc.page_content = some summary)
    (hw : writeOk (get_summary_filename doc.source) = false) :
    summarize_document llm writeOk saveLogOk st doc = (st, none, true) := by
  simp [summarize_document, hb, hl, hm, hw]

theorem summarize_document_saveLogFail (llm : String → Option String)
    (writeOk : String → Bool) (st : SummarizerState) (doc : Doc) (summary : String)
    (hb : blacklistHit st.blacklisted_urls doc.source = false)
    (hl : dictFind st.summarized_urls doc.source = none)
    (hm : llm doc.page_content = some summary)
    (hw : writeOk (get_summary_filename doc.source) = true) :
    summarize_document llm writeOk false st doc =
      ({ st with
          files := dictInsertOver st.files (get_summary_filename doc.source)
            (formattedSummary st doc summary)
          summarized_urls := dictInsertOver st.summarized_urls doc.source
            (get_summary_filename doc.source) },
       none, true) := by
  simp [summarize_document, hb, hl, hm, hw]

theorem summarize_document_success (llm : String → Option String)
    (writeOk : String → Bool) (st : SummarizerState) (doc : Doc) (summary : String)
    (hb : blacklistHit st.blacklisted_urls doc.source = false)
    (hl : dictFind st.summarized_urls doc.source = none)
    (hm : llm doc.page_content = some summary)
    (hw : writeOk (get_summary_filename doc.source) = true) :
    summarize_document llm writeOk true st doc =
      ({ st with
          files := dictInsertOver st.files (get_summary_filename doc.source)
            (formattedSummary st doc summary)
          summarized_urls := dictInsertOver st.summarized_urls doc.source
            (get_summary_filename doc.source)
          diskLog := dictInsertOver st.summarized_urls doc.source
            (get_summary_filename doc.source) },
       some (formattedSummary st doc summary), true) := by
  simp [summarize_document, hb, hl, hm, hw]

theorem summarize_document_preserves_config (llm : String → Option String)
    (writeOk : String → Bool) (saveLogOk : Bool) (st : SummarizerState) (doc : Doc) :
    (summarize_document llm writeOk saveLogOk st doc).1.blacklisted_urls =
        st.blacklisted_urls ∧
    (summarize_document llm writeOk saveLogOk st doc).1.url_titles = st.url_titles ∧
    (summarize_document llm writeOk saveLogOk st doc).1.existing_llms_file =
        st.existing_llms_file ∧
    (summarize_document llm writeOk saveLogOk st doc).1.hasFileStructureAttr =
        st.hasFileStructureAttr := by
  cases hb : blacklistHit st.blacklisted_urls doc.source with
  | true =>
    rw [summarize_document_blacklisted llm writeOk saveLogOk st doc hb]
    exact ⟨rfl, rfl, rfl, rfl⟩
  | false =>
    cases hl : dictFind st.summarized_urls doc.source with
    | some fname =>
      cases hf : dictFind st.files fname with
      | some content =>
        rw [summarize_document_cacheHit llm writeOk saveLogOk st doc fname content hb hl hf]
        exact ⟨rfl, rfl, rfl, rfl⟩
      | none =>
        rw [summarize_document_fileMissing llm writeOk saveLogOk st doc fname hb hl hf]
        exact ⟨rfl, rfl, rfl, rfl⟩
    | none =>
      cases hm : llm doc.page_content with
      | none =>
        rw [summarize_document_llmFail llm writeOk saveLogOk st doc hb hl hm]
        exact ⟨rfl, rfl, rfl, rfl⟩
      | some summary =>
        cases hw : writeOk (get_summary_filename doc.source) with
        | false =>
          rw [summarize_document_writeFail llm writeOk saveLogOk st doc summary hb hl hm hw]
          exact ⟨rfl, rfl, rfl, rfl⟩
        | true =>
          cases saveLogOk with
          | false =>
            rw [summarize_document_saveLogFail llm writeOk st doc summary hb hl hm hw]
            exact ⟨rfl, rfl, rfl, rfl⟩
          | true =>
            rw [summarize_document_success llm writeOk st doc summary hb hl hm hw]
            exact ⟨rfl, rfl, rfl, rfl⟩

/-! Checkpoint schedule of `summarize_all`. -/

/-- The multiples of five between 1 and `n`, in increasing order: the counts
at which the loop of `summarize_all` emits a checkpoint merge. -/
def multiplesOfFiveUpTo (n : Nat) : List Nat :=
  ((List.range n).map (· + 1)).filter (fun k => k % 5 = 0)

theorem multiplesOfFiveUpTo_succ (n : Nat) :
    multiplesOfFiveUpTo (n + 1) =
      multiplesOfFiveUpTo n ++ (if (n + 1) % 5 = 0 then [n + 1] else []) := by
  by_cases h : (n + 1) % 5 = 0
  · simp [multiplesOfFiveUpTo, List.range_succ, List.filter_append, h]
  · simp [multiplesOfFiveUpTo, List.range_succ, List.filter_append, h]

theorem summarizeAllGo_checkpoints (llm : String → Option String)
    (writeOk : String → Bool) (saveLogOk : String → Bool) :
    ∀ (docs : List Doc) (st : SummarizerState) (summaries : List String)
      (cps : List (Nat × Bool)),
    cps.map Prod.fst = multiplesOfFiveUpTo summaries.length →
    ((summarizeAllGo llm writeOk saveLogOk st summaries cps docs).2.2).map Prod.fst =
      multiplesOfFiveUpTo
        (summarizeAllGo llm writeOk saveLogOk st summaries cps docs).2.1.length := by
  intro docs
  induction docs with
  | nil =>
    intro st summaries cps h
    simpa [summarizeAllGo] using h
  | cons doc rest ih =>
    intro st summaries cps h
    cases hr : (summarize_document llm writeOk (saveLogOk doc.source) st doc).2.1 with
    | none =>
      simp only [summarizeAllGo, hr]
      exact ih _ summaries cps h
    | some s =>
      simp only [summarizeAllGo, hr]
      by_cases h5 : (summaries ++ [s]).length % 5 = 0
      · simp only [h5, if_pos]
        apply ih
        simp only [List.map_append, h, List.length_append, List.length_singleton]
        rw [multiplesOfFiveUpTo_succ]
        simp only [List.length_append, List.length_singleton] at h5
        simp [h5]
      · simp only [h5, if_neg, if_false]
        apply ih
        rw [h]
        simp only [List.length_append, List.length_singleton] at h5 ⊢
        rw [multiplesOfFiveUpTo_succ]
        simp [h5]

/-- The boolean recorded at each checkpoint equals `preserve_structure` of
the initial state: the configuration fields it reads never change during
the run. -/
theorem summarizeAllGo_checkpoint_strategy (llm : String → Option String)
    (writeOk : String → Bool) (saveLogOk : String → Bool) :
    ∀ (docs : List Doc) (st : SummarizerState) (summaries : List String)
      (cps : List (Nat × Bool)),
    (∀ e ∈ cps, e.2 = preserve_structure st) →
    ∀ e ∈ (summarizeAllGo llm writeOk saveLogOk st summaries cps docs).2.2,
      e.2 = preserve_structure st := by
  intro docs
  induction docs with
  | nil =>
    intro st summaries cps h
    simpa [summarizeAllGo] using h
  | cons doc rest ih =>
    intro st summaries cps h e he
    have hcfg := summarize_document_preserves_config llm writeOk (saveLogOk doc.source) st doc
    have hps : preserve_structure (summarize_document llm writeOk (saveLogOk doc.source) st doc).1 =
        preserve_structure st := by
      simp [preserve_structure, hcfg.2.2.1, hcfg.2.2.2]
    cases hr : (summarize_document llm writeOk (saveLogOk doc.source) st doc).2.1 with
    | none =>
      simp only [summarizeAllGo, hr] at he
      have := ih (summarize_document llm writeOk (saveLogOk doc.source) st doc).1
        summaries cps (by intro e' he'; rw [hps]; exact h e' he') e he
      rw [← hps]
      exact this
    | some s =>
      simp only [summarizeAllGo, hr] at he
      by_cases h5 : (summaries ++ [s]).length % 5 = 0
      · simp only [h5, if_pos] at he
        have := ih (summarize_document llm writeOk (saveLogOk doc.source) st doc).1
          (summaries ++ [s]) (cps ++ [((summaries ++ [s]).length, preserve_structure st)])
          (by
            intro e' he'
            rw [hps]
            rcases List.mem_append.mp he' with h' | h'
            · exact h e' h'
            · simp only [List.mem_singleton] at h'
              rw [h'])
          e he
        rw [← hps]
        exact this
      · simp only [h5, if_neg, if_false] at he
        have := ih (summarize_document llm writeOk (saveLogOk doc.source) st doc).1
          (summaries ++ [s]) cps (by intro e' he'; rw [hps]; exact h e' he') e he
        rw [← hps]
        exact this

/-- If `summarize_document` returns no summary and leaves the state
unchanged, `summarize_all` on `doc :: rest` behaves exactly as on `rest`:
the failing document is skipped and the batch continues. -/
theorem summarize_all_continues (llm : String → Option String)
    (writeOk : String → Bool) (saveLogOk : String → Bool) (st : SummarizerState)
    (doc : Doc) (rest : List Doc) (b : Bool)
    (h : summarize_document llm writeOk (saveLogOk doc.source) st doc = (st, none, b)) :
    summarize_all llm writeOk saveLogOk st (doc :: rest) =
      summarize_all llm writeOk saveLogOk st rest := by
  simp only [summarize_all, summarizeAllGo, h]

/-! Shared concrete fixtures for witnesses and counterexamples. -/

/-- A model client that always answers with the summary S. -/
def llmConstS : String → Option String := fun _ => some "S"

/-- File writes that always succeed. -/
def allWritesOk : String → Bool := fun _ => true

/-- Log saves that always succeed. -/
def allSavesOk : String → Bool := fun _ => true

/-- C3 counterexample.  The claim says a single normalization function
(lowercase + trailing-slash strip) keys every dedup and lookup decision.
The two URL strings differ only by case, so they receive the same
`normalize_url` key and the loader dedups them to one document; but the
blacklist membership test distinguishes them, and Strategy A's grouping
keeps two separate manifest entries for them. -/
theorem C3_counterexample :
    normalize_url "https://EX.com/a" = normalize_url "https://ex.com/a" ∧
    (loaderDedup [] ["https://EX.com/a", "https://ex.com/a"]).length = 1 ∧
    blacklistHit ["https://ex.com/a"] "https://ex.com/a" = true ∧
    blacklistHit ["https://ex.com/a"] "https://EX.com/a" = false ∧
    (strategyA_entries
      [("f1.txt", "[A](https://EX.com/a): x\n\n"), ("f2.txt", "[A](https://ex.com/a): x\n\n")]
      "llms.txt" []).length = 2 := by
  refine ⟨by decide, by decide, by decide, by decide, by decide⟩

/-- C3 as amended: the loader's dedup treats two URLs as the same page iff
they agree under `normalize_url` (lowercase + trailing-slash strip), while
the blacklist membership test and Strategy A's grouping treat two URLs as
the same iff they agree after trailing-slash stripping alone (no case
folding). -/
theorem C3_amended :
    (∀ u v : String, loaderDedup [] [u, v] = [u] ↔ normalize_url v = normalize_url u) ∧
    (∀ u v : String,
      (∀ bl : List String, blacklistHit bl u = blacklistHit bl v) ↔
        rstripSlash u = rstripSlash v) ∧
    (∀ u v c1 c2 : String,
      (groupEntries [(rstripSlash u, c1), (rstripSlash v, c2)] []).length = 1 ↔
        rstripSlash u = rstripSlash v) := by
  refine ⟨?_, ?_, ?_⟩
  · intro u v
    by_cases h : normalize_url v = normalize_url u
    · simp [loaderDedup, h]
    · simp [loaderDedup, h]
  · intro u v
    constructor
    · intro hall
      have h1 := hall [rstripSlash u]
      simp only [blacklistHit] at h1
      have hu : [rstripSlash u].contains (rstripSlash u) = true := by
        simp [List.contains_cons]
      rw [hu] at h1
      have h2 : [rstripSlash u].contains (rstripSlash v) = true := h1.symm
      simp only [List.contains_cons, List.contains_nil, Bool.or_false, beq_iff_eq] at h2
      exact h2.symm
    · intro heq bl
      simp [blacklistHit, heq]
  · intro u v c1 c2
    by_cases h : rstripSlash u = rstripSlash v
    · simp [groupEntries, dictAppend, h]
    · simp [groupEntries, dictAppend, h]

/-- C3 amended witness: a trailing-slash variant pair is treated alike by
the blacklist test. -/
theorem C3_amended_witness :
    blacklistHit ["https://a.co/x"] "https://a.co/x/" =
      blacklistHit ["https://a.co/x"] "https://a.co/x" :=
  ((C3_amended.2.1 "https://a.co/x/" "https://a.co/x").mpr (by decide)) ["https://a.co/x"]

/-- C1 counterexample.  First conjuncts: with a stale record file on disk
for a blacklisted URL, Strategy B's output manifest still carries an entry
for that URL (its stale record content), because
`generate_structured_llms_txt` never consults the blacklist.  Last
conjuncts: a URL whose `normalize_url` form is in the loaded blacklist but
whose case differs is not skipped by the Summarizer — it is summarized and
returns a record. -/
theorem C1_counterexample :
    blacklistHit ["https://ex.com/bad"] "https://ex.com/bad" = true ∧
    generate_structured_llms_txt []
        [("stale.txt", "[B](https://ex.com/bad): stale\n\n")] "llms.txt"
        ["# Docs\n", "[B](https://ex.com/bad): old\n"] =
      "# Docs\n[B](https://ex.com/bad): stale\n" ∧
    url_search
        (generate_structured_llms_txt []
          [("stale.txt", "[B](https://ex.com/bad): stale\n\n")] "llms.txt"
          ["# Docs\n", "[B](https://ex.com/bad): old\n"]) =
      some ("B", "https://ex.com/bad") ∧
    normalize_url "https://EX.com/a" ∈
      (mkSummarizerState ["https://ex.com/a"] [] [] [] none).blacklisted_urls ∧
    (summarize_document llmConstS allWritesOk true
        (mkSummarizerState ["https://ex.com/a"] [] [] [] none)
        { source := "https://EX.com/a", title := some "T", page_content := "b" }).2.1 =
      some "[T](https://EX.com/a): S\n\n" := by
  refine ⟨by decide, by decide, by decide, by decide, by decide⟩

/-- C1 as amended: a URL that equals a loaded blacklist entry after
trailing-slash stripping (the comparison is not case-folded) is skipped by
`summarize_document` with no state change, no file write and no model call;
and Strategy A's manifest contains no entry whose normalized URL is
blacklisted, even when a stale record file exists.  Strategy B performs no
blacklist filtering. -/
theorem C1_amended :
    (∀ (llm : String → Option String) (writeOk : String → Bool) (saveLogOk : Bool)
        (st : SummarizerState) (doc : Doc),
      blacklistHit st.blacklisted_urls doc.source = true →
      summarize_document llm writeOk saveLogOk st doc = (st, none, false)) ∧
    (∀ (listing : List (String × String)) (outBase : String) (bl : List String),
      ∀ e ∈ strategyA_entries listing outBase bl, e.1 ∉ bl) := by
  refine ⟨summarize_document_blacklisted, ?_⟩
  intro listing outBase bl e he
  have h1 : e ∈ dedupContent (uniqueEntries listing outBase bl) [] :=
    (sortEntriesByUrl_perm _).mem_iff.mp he
  have h2 : e ∈ uniqueEntries listing outBase bl :=
    (dedupContent_sublist _ _).subset h1
  rcases List.mem_map.mp h2 with ⟨g, hg, hge⟩
  have h3 : e.1 = g.1 := by rw [← hge]
  rw [h3]
  exact ((groupEntries_spec (collectEntries listing outBase) bl).1 g hg).2

/-- C1 amended witness: the skip behavior at a concrete blacklisted
document, and a concrete Strategy A entry whose URL is not blacklisted. -/
theorem C1_amended_witness :
    summarize_document llmConstS allWritesOk true
        (mkSummarizerState ["https://ex.com/bad"] [] [] [] none)
        { source := "https://ex.com/bad/", title := none, page_content := "b" } =
      (mkSummarizerState ["https://ex.com/bad"] [] [] [] none, none, false) ∧
    ("https://a.co/x", "[A](https://a.co/x): xx\n\n").1 ∉ ["https://b.co"] :=
  ⟨C1_amended.1 llmConstS allWritesOk true
      (mkSummarizerState ["https://ex.com/bad"] [] [] [] none)
      { source := "https://ex.com/bad/", title := none, page_content := "b" }
      (by decide),
   C1_amended.2 [("a.txt", "[A](https://a.co/x): xx\n\n")] "llms.txt" ["https://b.co"]
      ("https://a.co/x", "[A](https://a.co/x): xx\n\n") (by decide)⟩

/-- C2 counterexample.  The URL is in the log but its record file is
missing — by the claim's definition it is not cached, and the claim's
'otherwise' branch says the model is invoked.  The code instead returns
null without any model call (summarizer.py line 174). -/
theorem C2_counterexample :
    blacklistHit
        (mkSummarizerState [] [("https://a.com/x", "f.txt")] [] [] none).blacklisted_urls
        "https://a.com/x" = false ∧
    dictFind
        (mkSummarizerState [] [("https://a.com/x", "f.txt")] [] [] none).summarized_urls
        "https://a.com/x" = some "f.txt" ∧
    dictFind (mkSummarizerState [] [("https://a.com/x", "f.txt")] [] [] none).files
        "f.txt" = none ∧
    (summarize_document llmConstS allWritesOk true
        (mkSummarizerState [] [("https://a.com/x", "f.txt")] [] [] none)
        { source := "https://a.com/x", title := some "T", page_content := "b" }) =
      (mkSummarizerState [] [("https://a.com/x", "f.txt")] [] [] none, none, false) := by
  refine ⟨by decide, by decide, by decide, by decide⟩

/-- C2 as amended: the model is invoked iff the URL is neither blacklisted
nor a key of the log (file existence plays no role in that decision); a
cache hit (URL in log, record file present) returns the stored content
exactly with no model call; URL in log with the file missing returns null
with no model call; and a successful first summarization followed by a
second call on the same document is a cache hit returning the identical
record, so two runs perform exactly one model call. -/
theorem C2_amended :
    (∀ (llm : String → Option String) (writeOk : String → Bool) (saveLogOk : Bool)
        (st : SummarizerState) (doc : Doc),
      (summarize_document llm writeOk saveLogOk st doc).2.2 = true ↔
        (blacklistHit st.blacklisted_urls doc.source = false ∧
         dictFind st.summarized_urls doc.source = none)) ∧
    (∀ (llm : String → Option String) (writeOk : String → Bool) (saveLogOk : Bool)
        (st : SummarizerState) (doc : Doc) (fname content : String),
      blacklistHit st.blacklisted_urls doc.source = false →
      dictFind st.summarized_urls doc.source = some fname →
      dictFind st.files fname = some content →
      summarize_document llm writeOk saveLogOk st doc = (st, some content, false)) ∧
    (∀ (llm : String → Option String) (writeOk : String → Bool) (saveLogOk : Bool)
        (st : SummarizerState) (doc : Doc) (fname : String),
      blacklistHit st.blacklisted_urls doc.source = false →
      dictFind st.summarized_urls doc.source = some fname →
      dictFind st.files fname = none →
      summarize_document llm writeOk saveLogOk st doc = (st, none, false)) ∧
    (∀ (llm : String → Option String) (writeOk : String → Bool)
        (st : SummarizerState) (doc : Doc) (summary : String),
      blacklistHit st.blacklisted_urls doc.source = false →
      dictFind st.summarized_urls doc.source = none →
      llm doc.page_content = some summary →
      writeOk (get_summary_filename doc.source) = true →
      (summarize_document llm writeOk true st doc).2.1 =
        some (formattedSummary st doc summary) ∧
      (summarize_document llm writeOk true st doc).2.2 = true ∧
      summarize_document llm writeOk true
          (summarize_document llm writeOk true st doc).1 doc =
        ((summarize_document llm writeOk true st doc).1,
         some (formattedSummary st doc summary), false)) := by
  refine ⟨?_, summarize_document_cacheHit, summarize_document_fileMissing, ?_⟩
  · intro llm writeOk saveLogOk st doc
    cases hb : blacklistHit st.blacklisted_urls doc.source with
    | true =>
      rw [summarize_document_blacklisted llm writeOk saveLogOk st doc hb]
      simp
    | false =>
      cases hl : dictFind st.summarized_urls doc.source with
      | some fname =>
        cases hf : dictFind st.files fname with
        | some content =>
          rw [summarize_document_cacheHit llm writeOk saveLogOk st doc fname content hb hl hf]
          simp
        | none =>
          rw [summarize_document_fileMissing llm writeOk saveLogOk st doc fname hb hl hf]
          simp
      | none =>
        cases hm : llm doc.page_content with
        | none =>
          rw [summarize_document_llmFail llm writeOk saveLogOk st doc hb hl hm]
          simp
        | some summary =>
          cases hw : writeOk (get_summary_filename doc.source) with
          | false =>
            rw [summarize_document_writeFail llm writeOk saveLogOk st doc summary hb hl hm hw]
            simp
          | true =>
            cases saveLogOk with
            | false =>
              rw [summarize_document_saveLogFail llm writeOk st doc summary hb hl hm hw]
              simp
            | true =>
              rw [summarize_document_success llm writeOk st doc summary hb hl hm hw]
              simp
  · intro llm writeOk st doc summary hb hl hm hw
    rw [summarize_document_success llm writeOk st doc summary hb hl hm hw]
    refine ⟨rfl, rfl, ?_⟩
    apply summarize_document_cacheHit
    · exact hb
    · exact dictFind_insertOver_self st.summarized_urls doc.source
        (get_summary_filename doc.source)
    · exact dictFind_insertOver_self st.files (get_summary_filename doc.source)
        (formattedSummary st doc summary)

/-- C2 amended witness: concrete cache hit, and a concrete first-run /
second-run pair with exactly one model call. -/
theorem C2_amended_witness :
    summarize_document llmConstS allWritesOk true
        (mkSummarizerState [] [("https://a.com/x", "f.txt")]
          [("f.txt", "[T](https://a.com/x): old\n\n")] [] none)
        { source := "https://a.com/x", title := some "T", page_content := "b" } =
      (mkSummarizerState [] [("https://a.com/x", "f.txt")]
          [("f.txt", "[T](https://a.com/x): old\n\n")] [] none,
       some "[T](https://a.com/x): old\n\n", false) ∧
    summarize_document llmConstS allWritesOk true
        (summarize_document llmConstS allWritesOk true
          (mkSummarizerState [] [] [] [] none)
          { source := "https://a.com/x", title := some "T", page_content := "b" }).1
        { source := "https://a.com/x", title := some "T", page_content := "b" } =
      ((summarize_document llmConstS allWritesOk true
          (mkSummarizerState [] [] [] [] none)
          { source := "https://a.com/x", title := some "T", page_content := "b" }).1,
       some (formattedSummary (mkSummarizerState [] [] [] [] none)
          { source := "https://a.com/x", title := some "T", page_content := "b" } "S"),
       false) :=
  ⟨C2_amended.2.1 llmConstS allWritesOk true
      (mkSummarizerState [] [("https://a.com/x", "f.txt")]
        [("f.txt", "[T](https://a.com/x): old\n\n")] [] none)
      { source := "https://a.com/x", title := some "T", page_content := "b" }
      "f.txt" "[T](https://a.com/x): old\n\n" (by decide) (by decide) (by decide),
   (C2_amended.2.2.2 llmConstS allWritesOk
      (mkSummarizerState [] [] [] [] none)
      { source := "https://a.com/x", title := some "T", page_content := "b" }
      "S" (by decide) (by decide) (by decide) (by decide)).2.2⟩

/-- C8 counterexample.  When the `_save_log` write raises (all three of
model call, record write, and log save sit in the same `try`),
`summarize_document` returns null but the Summarizer's state for that URL
is changed: the record file exists and the in-memory log has gained the
entry. -/
theorem C8_counterexample :
    (summarize_document llmConstS allWritesOk false
        (mkSummarizerState [] [] [] [] none)
        { source := "https://a.com/x", title := some "T", page_content := "b" }).2.1 =
      none ∧
    (summarize_document llmConstS allWritesOk false
        (mkSummarizerState [] [] [] [] none)
        { source := "https://a.com/x", title := some "T", page_content := "b" }).1.summarized_urls =
      [("https://a.com/x", "a.com_x.txt")] ∧
    (summarize_document llmConstS allWritesOk false
        (mkSummarizerState [] [] [] [] none)
        { source := "https://a.com/x", title := some "T", page_content := "b" }).1.files =
      [("a.com_x.txt", "[T](https://a.com/x): S\n\n")] ∧
    (mkSummarizerState [] [] [] [] none).summarized_urls = [] := by
  refine ⟨by decide, by decide, by decide, by decide⟩

/-- C8 as amended: when the model call raises, or the record-file write
raises, `summarize_document` returns null and leaves the state unchanged
(no record file, no log entry); when the later log-save write raises, null
is returned but the record file and the in-memory log entry persist (the
on-disk log is unchanged); and in every case where a document yields no
summary and no state change, `summarize_all` continues with the remaining
documents exactly as if the document were absent. -/
theorem C8_amended :
    (∀ (llm : String → Option String) (writeOk : String → Bool) (saveLogOk : Bool)
        (st : SummarizerState) (doc : Doc),
      blacklistHit st.blacklisted_urls doc.source = false →
      dictFind st.summarized_urls doc.source = none →
      llm doc.page_content = none →
      summarize_document llm writeOk saveLogOk st doc = (st, none, true)) ∧
    (∀ (llm : String → Option String) (writeOk : String → Bool) (saveLogOk : Bool)
        (st : SummarizerState) (doc : Doc) (summary : String),
      blacklistHit st.blacklisted_urls doc.source = false →
      dictFind st.summarized_urls doc.source = none →
      llm doc.page_content = some summary →
      writeOk (get_summary_filename doc.source) = false →
      summarize_document llm writeOk saveLogOk st doc = (st, none, true)) ∧
    (∀ (llm : String → Option String) (writeOk : String → Bool)
        (st : SummarizerState) (doc : Doc) (summary : String),
      blacklistHit st.blacklisted_urls doc.source = false →
      dictFind st.summarized_urls doc.source = none →
      llm doc.page_content = some summary →
      writeOk (get_summary_filename doc.source) = true →
      (summarize_document llm writeOk false st doc).2.1 = none ∧
      (summarize_document llm writeOk false st doc).1.summarized_urls =
        dictInsertOver st.summarized_urls doc.source (get_summary_filename doc.source) ∧
      (summarize_document llm writeOk false st doc).1.diskLog = st.diskLog) ∧
    (∀ (llm : String → Option String) (writeOk : String → Bool)
        (saveLogOk : String → Bool) (st : SummarizerState) (doc : Doc)
        (rest : List Doc) (b : Bool),
      summarize_document llm writeOk (saveLogOk doc.source) st doc = (st, none, b) →
      summarize_all llm writeOk saveLogOk st (doc :: rest) =
        summarize_all llm writeOk saveLogOk st rest) := by
  refine ⟨summarize_document_llmFail, summarize_document_writeFail, ?_,
    summarize_all_continues⟩
  intro llm writeOk st doc summary hb hl hm hw
  rw [summarize_document_saveLogFail llm writeOk st doc summary hb hl hm hw]
  exact ⟨rfl, rfl, rfl⟩

/-- C8 amended witness: a concrete model-call failure leaves the state
unchanged, and the batch over the remaining documents is unaffected. -/
theorem C8_amended_witness :
    summarize_document (fun _ => none) allWritesOk true
        (mkSummarizerState [] [] [] [] none)
        { source := "https://a.com/x", title := some "T", page_content := "b" } =
      (mkSummarizerState [] [] [] [] none, none, true) ∧
    summarize_all (fun _ => none) allWritesOk allSavesOk
        (mkSummarizerState [] [] [] [] none)
        [{ source := "https://a.com/x", title := some "T", page_content := "b" },
         { source := "https://b.com/y", title := none, page_content := "c" }] =
      summarize_all (fun _ => none) allWritesOk allSavesOk
        (mkSummarizerState [] [] [] [] none)
        [{ source := "https://b.com/y", title := none, page_content := "c" }] :=
  ⟨C8_amended.1 (fun _ => none) allWritesOk true
      (mkSummarizerState [] [] [] [] none)
      { source := "https://a.com/x", title := some "T", page_content := "b" }
      (by decide) (by decide) rfl,
   C8_amended.2.2.2 (fun _ => none) allWritesOk allSavesOk
      (mkSummarizerState [] [] [] [] none)
      { source := "https://a.com/x", title := some "T", page_content := "b" }
      [{ source := "https://b.com/y", title := none, page_content := "c" }]
      true
      (C8_amended.1 (fun _ => none) allWritesOk true
        (mkSummarizerState [] [] [] [] none)
        { source := "https://a.com/x", title := some "T", page_content := "b" }
        (by decide) (by decide) rfl)⟩

/-- C5: in Strategy A, every entry produced by the per-URL selection stage
is, for its normalized URL's group of record contents, a member of maximal
length (the stable descending sort makes it the first listed content of
maximal length); the subsequent content deduplication keeps the first
occurrence of each distinct content, yields pairwise distinct contents, is
a sublist of the selection stage's output, and loses no content value. -/
theorem C5_longest_then_dedup (listing : List (String × String)) (outBase : String)
    (bl : List String) :
    (∀ p ∈ uniqueEntries listing outBase bl,
      ∃ cs, (p.1, cs) ∈ groupEntries (collectEntries listing outBase) bl ∧
        p.2 ∈ cs ∧ ∀ c ∈ cs, c.length ≤ p.2.length) ∧
    List.Pairwise (fun a b : String × String => a.2 ≠ b.2)
      (dedupContent (uniqueEntries listing outBase bl) []) ∧
    (dedupContent (uniqueEntries listing outBase bl) []).Sublist
      (uniqueEntries listing outBase bl) ∧
    (∀ p ∈ uniqueEntries listing outBase bl,
      ∃ u', (u', p.2) ∈ dedupContent (uniqueEntries listing outBase bl) []) := by
  refine ⟨?_, (dedupContent_spec _ _).2, dedupContent_sublist _ _, ?_⟩
  · intro p hp
    rcases List.mem_map.mp hp with ⟨g, hg, hge⟩
    have hne : g.2 ≠ [] :=
      ((groupEntries_spec (collectEntries listing outBase) bl).1 g hg).1
    have hbest := bestContent_spec g.2 hne
    refine ⟨g.2, ?_, ?_, ?_⟩
    · rw [← hge]; simpa using hg
    · rw [← hge]; exact hbest.1
    · rw [← hge]; exact hbest.2
  · intro p hp
    obtain ⟨u, c⟩ := p
    rcases dedupContent_coverage (uniqueEntries listing outBase bl) [] u c hp with
      hc | hex
    · simp at hc
    · exact hex

/-- C5 witness: on a concrete directory with a trailing-slash duplicate and
a byte-identical repeat, the kept entry is the longest of its group and the
dedup stage has pairwise distinct contents. -/
theorem C5_longest_then_dedup_witness :
    (∃ cs,
      (("https://a.co/x", cs) ∈ groupEntries (collectEntries
        [("f1.txt", "[A](https://a.co/x): longer text\n\n"),
         ("f2.txt", "[A](https://a.co/x/): s\n\n"),
         ("f3.txt", "[B](https://b.co/y): s\n\n"),
         ("f4.txt", "[B](https://b.co/y): s\n\n")] "llms.txt") []) ∧
      "[A](https://a.co/x): longer text\n\n" ∈ cs ∧
      ∀ c ∈ cs, c.length ≤ ("[A](https://a.co/x): longer text\n\n" : String).length) ∧
    List.Pairwise (fun a b : String × String => a.2 ≠ b.2)
      (dedupContent (uniqueEntries
        [("f1.txt", "[A](https://a.co/x): longer text\n\n"),
         ("f2.txt", "[A](https://a.co/x/): s\n\n"),
         ("f3.txt", "[B](https://b.co/y): s\n\n"),
         ("f4.txt", "[B](https://b.co/y): s\n\n")] "llms.txt" []) []) :=
  ⟨(C5_longest_then_dedup
      [("f1.txt", "[A](https://a.co/x): longer text\n\n"),
       ("f2.txt", "[A](https://a.co/x/): s\n\n"),
       ("f3.txt", "[B](https://b.co/y): s\n\n"),
       ("f4.txt", "[B](https://b.co/y): s\n\n")] "llms.txt" []).1
      ("https://a.co/x", "[A](https://a.co/x): longer text\n\n") (by decide),
   (C5_longest_then_dedup
      [("f1.txt", "[A](https://a.co/x): longer text\n\n"),
       ("f2.txt", "[A](https://a.co/x/): s\n\n"),
       ("f3.txt", "[B](https://b.co/y): s\n\n"),
       ("f4.txt", "[B](https://b.co/y): s\n\n")] "llms.txt" []).2.1⟩

/-- C4 counterexample.  The two listings hold the same set of record files
(one is the reverse of the other — `os.listdir` promises no order), both
contents share the normalized URL and have equal length, so the stable
descending-length sort keeps whichever the enumeration listed first: the
two invocations write different bytes.  Determinism as a function of the
file set fails. -/
theorem C4_counterexample :
    (([("f1.txt", "[A](https://x.co/a): p\n\n"),
       ("f2.txt", "[B](https://x.co/a): q\n\n")] :
        List (String × String)).reverse).Perm
      [("f1.txt", "[A](https://x.co/a): p\n\n"),
       ("f2.txt", "[B](https://x.co/a): q\n\n")] ∧
    generate_llms_txt []
        [("f1.txt", "[A](https://x.co/a): p\n\n"),
         ("f2.txt", "[B](https://x.co/a): q\n\n")].reverse "llms.txt" [] ≠
      generate_llms_txt []
        [("f1.txt", "[A](https://x.co/a): p\n\n"),
         ("f2.txt", "[B](https://x.co/a): q\n\n")] "llms.txt" [] :=
  ⟨List.reverse_perm _, by decide⟩

/-- C4 as amended: for a fixed directory enumeration the rebuild strategy
is a pure function of the listing — in particular it ignores the current
run's summary list entirely — and its entries appear in strictly ascending
order of normalized URL; but for a fixed set of record files the bytes can
depend on the enumeration order (see the counterexample), so two
invocations agree only when they observe the same listing order. -/
theorem C4_amended :
    (∀ (summaries summaries' : List String) (listing : List (String × String))
        (outBase : String) (bl : List String),
      generate_llms_txt summaries listing outBase bl =
        generate_llms_txt summaries' listing outBase bl) ∧
    (∀ (listing : List (String × String)) (outBase : String) (bl : List String),
      List.Pairwise (fun a b : String × String => strLt a.1 b.1 = true)
        (strategyA_entries listing outBase bl)) := by
  constructor
  · intro summaries summaries' listing outBase bl
    rfl
  · intro listing outBase bl
    have hsorted : List.Pairwise
        (fun a b : String × String => strLt b.1 a.1 = false)
        (strategyA_entries listing outBase bl) :=
      sortEntriesByUrl_sorted _
    have hnd0 : ((groupEntries (collectEntries listing outBase) bl).map
        Prod.fst).Nodup := (groupEntries_spec _ _).2
    have hnd1 : ((uniqueEntries listing outBase bl).map Prod.fst).Nodup := by
      have : (uniqueEntries listing outBase bl).map Prod.fst =
          (groupEntries (collectEntries listing outBase) bl).map Prod.fst := by
        simp [uniqueEntries, List.map_map, Function.comp_def]
      rw [this]
      exact hnd0
    have hnd2 : ((dedupContent (uniqueEntries listing outBase bl) []).map
        Prod.fst).Nodup :=
      hnd1.sublist ((dedupContent_sublist _ _).map Prod.fst)
    have hnd3 : ((strategyA_entries listing outBase bl).map Prod.fst).Nodup :=
      (((sortEntriesByUrl_perm _).map Prod.fst).nodup_iff).mpr hnd2
    have hne : List.Pairwise (fun a b : String × String => a.1 ≠ b.1)
        (strategyA_entries listing outBase bl) :=
      List.pairwise_map.mp hnd3
    have := hsorted.and hne
    refine this.imp ?_
    intro a b hab
    cases h : strLt a.1 b.1 with
    | true => rfl
    | false => exact absurd (strLt_conn h hab.1) hab.2

/-- C4 amended witness: both invocations of the rebuild on the same listing
with different summary arguments agree, and a concrete sorted entry list. -/
theorem C4_amended_witness :
    generate_llms_txt ["run summary"]
        [("b.txt", "[B](https://b.co/y): yy\n\n"),
         ("a.txt", "[A](https://a.co/x): xx\n\n")] "llms.txt" [] =
      generate_llms_txt []
        [("b.txt", "[B](https://b.co/y): yy\n\n"),
         ("a.txt", "[A](https://a.co/x): xx\n\n")] "llms.txt" [] ∧
    List.Pairwise (fun a b : String × String => strLt a.1 b.1 = true)
      (strategyA_entries
        [("b.txt", "[B](https://b.co/y): yy\n\n"),
         ("a.txt", "[A](https://a.co/x): xx\n\n")] "llms.txt" []) :=
  ⟨C4_amended.1 ["run summary"] []
      [("b.txt", "[B](https://b.co/y): yy\n\n"),
       ("a.txt", "[A](https://a.co/x): xx\n\n")] "llms.txt" [],
   C4_amended.2
      [("b.txt", "[B](https://b.co/y): yy\n\n"),
       ("a.txt", "[A](https://a.co/x): xx\n\n")] "llms.txt" []⟩

theorem length_filter_none_add_some (fs : List String) :
    (fs.filter (fun l => (url_search l).isNone)).length +
      (fs.filter (fun l => (url_search l).isSome)).length = fs.length := by
  induction fs with
  | nil => simp
  | cons l rest ih =>
    cases h : url_search l with
    | none => simp [List.filter_cons, h]; omega
    | some r => simp [List.filter_cons, h]; omega

/-- C6: the structure-preserving walk is a pure frame over the skeleton.
The output has exactly one line per skeleton line (N structural plus M
entry lines, in order); a structural line (no entry-pattern match) is
byte-identical in the output; an entry line whose URL is not covered by the
summary map is byte-identical; an entry line whose URL the map covers is
replaced by the mapped record text plus a newline. -/
theorem C6_structure_preservation (file_structure : List String)
    (m : List (String × String)) :
    (patchLines file_structure m).length = file_structure.length ∧
    (file_structure.filter (fun l => (url_search l).isNone)).length +
      (file_structure.filter (fun l => (url_search l).isSome)).length =
      (patchLines file_structure m).length ∧
    (∀ (i : Nat) (line : String), file_structure.get? i = some line →
      url_search line = none → (patchLines file_structure m).get? i = some line) ∧
    (∀ (i : Nat) (line : String) (r : String × String),
      file_structure.get? i = some line → url_search line = some r →
      dictFind m r.2 = none → (patchLines file_structure m).get? i = some line) ∧
    (∀ (i : Nat) (line : String) (r : String × String) (s : String),
      file_structure.get? i = some line → url_search line = some r →
      dictFind m r.2 = some s →
      (patchLines file_structure m).get? i = some (s ++ "\n")) := by
  refine ⟨by simp [patchLines], ?_, ?_, ?_, ?_⟩
  · rw [show (patchLines file_structure m).length = file_structure.length by
      simp [patchLines]]
    exact length_filter_none_add_some file_structure
  · intro i line hget hsearch
    simp only [patchLines, List.get?_map, hget, Option.map_some]
    simp [patchLine, hsearch]
  · intro i line r hget hsearch hfind
    simp only [patchLines, List.get?_map, hget, Option.map_some]
    simp [patchLine, hsearch, hfind]
  · intro i line r s hget hsearch hfind
    simp only [patchLines, List.get?_map, hget, Option.map_some]
    simp [patchLine, hsearch, hfind]

/-- C6 witness: on a concrete three-line skeleton (header, entry, blank
separator) with a map covering the entry's URL, the header and blank line
pass through and the entry line is replaced. -/
theorem C6_structure_preservation_witness :
    (patchLines ["# Docs\n", "[A](https://a.co/x): old\n", "\n"]
        [("https://a.co/x", "[A](https://a.co/x): new")]).get? 0 =
      some "# Docs\n" ∧
    (patchLines ["# Docs\n", "[A](https://a.co/x): old\n", "\n"]
        [("https://a.co/x", "[A](https://a.co/x): new")]).get? 1 =
      some ("[A](https://a.co/x): new" ++ "\n") ∧
    (patchLines ["# Docs\n", "[A](https://a.co/x): old\n", "\n"]
        [("https://a.co/x", "[A](https://a.co/x): new")]).get? 2 = some "\n" :=
  ⟨(C6_structure_preservation ["# Docs\n", "[A](https://a.co/x): old\n", "\n"]
      [("https://a.co/x", "[A](https://a.co/x): new")]).2.2.1 0 "# Docs\n"
      (by decide) (by decide),
   (C6_structure_preservation ["# Docs\n", "[A](https://a.co/x): old\n", "\n"]
      [("https://a.co/x", "[A](https://a.co/x): new")]).2.2.2.2 1
      "[A](https://a.co/x): old\n" ("A", "https://a.co/x")
      "[A](https://a.co/x): new" (by decide) (by decide) (by decide),
   (C6_structure_preservation ["# Docs\n", "[A](https://a.co/x): old\n", "\n"]
      [("https://a.co/x", "[A](https://a.co/x): new")]).2.2.1 2 "\n"
      (by decide) (by decide)⟩

/-- C9 counterexample.  An update-descriptions run: the final merge is
structure-preserving (main.py line 134 selects Strategy B), but the
checkpoint fired at the fifth summary used the sorted rebuild —
`preserve_structure` is false because `self.file_structure` is never
assigned anywhere in the repository, so `hasattr(self, 'file_structure')`
fails and summarizer.py line 248 runs `generate_llms_txt`. -/
theorem C9_counterexample :
    finalUsesStructured true (some ["# Docs\n", "[A](https://a.co/1): old\n"]) = true ∧
    preserve_structure (mkSummarizerState [] [] [] [] (some "llms.txt")) = false ∧
    (summarize_all llmConstS allWritesOk allSavesOk
        (mkSummarizerState [] [] [] [] (some "llms.txt"))
        [{ source := "https://a.co/1", title := some "T", page_content := "b" },
         { source := "https://a.co/2", title := some "T", page_content := "b" },
         { source := "https://a.co/3", title := some "T", page_content := "b" },
         { source := "https://a.co/4", title := some "T", page_content := "b" },
         { source := "https://a.co/5", title := some "T", page_content := "b" }]).2.2 =
      [(5, false)] := by
  refine ⟨by decide, by decide, by decide⟩

/-- C9 as amended: within a run a checkpoint merge is emitted exactly when
the count of summaries returned so far (non-null results of
`summarize_document`, cache hits included) reaches a multiple of five —
the recorded checkpoint counts are precisely the multiples of five up to
the final summary count; but every checkpoint uses the sorted rebuild
strategy (recorded flag false) whenever the state stems from the
constructor, because the `file_structure` attribute is never set — even
when the selected final merge strategy is the structure-preserving one. -/
theorem C9_amended :
    (∀ (llm : String → Option String) (writeOk : String → Bool)
        (saveLogOk : String → Bool) (st : SummarizerState) (docs : List Doc),
      ((summarize_all llm writeOk saveLogOk st docs).2.2).map Prod.fst =
        multiplesOfFiveUpTo
          (summarize_all llm writeOk saveLogOk st docs).2.1.length) ∧
    (∀ (llm : String → Option String) (writeOk : String → Bool)
        (saveLogOk : String → Bool) (st : SummarizerState) (docs : List Doc),
      st.hasFileStructureAttr = false →
      ∀ e ∈ (summarize_all llm writeOk saveLogOk st docs).2.2, e.2 = false) := by
  constructor
  · intro llm writeOk saveLogOk st docs
    exact summarizeAllGo_checkpoints llm writeOk saveLogOk docs st [] []
      (by simp [multiplesOfFiveUpTo])
  · intro llm writeOk saveLogOk st docs hattr e he
    have hps : preserve_structure st = false := by
      simp [preserve_structure, hattr]
    have := summarizeAllGo_checkpoint_strategy llm writeOk saveLogOk docs st [] []
      (by simp) e he
    rw [this, hps]

/-- C9 amended witness: the concrete five-document run checkpoints exactly
at count five, with the sorted strategy. -/
theorem C9_amended_witness :
    ((summarize_all llmConstS allWritesOk allSavesOk
        (mkSummarizerState [] [] [] [] (some "llms.txt"))
        [{ source := "https://a.co/1", title := some "T", page_content := "b" },
         { source := "https://a.co/2", title := some "T", page_content := "b" },
         { source := "https://a.co/3", title := some "T", page_content := "b" },
         { source := "https://a.co/4", title := some "T", page_content := "b" },
         { source := "https://a.co/5", title := some "T", page_content := "b" }]).2.2).map
      Prod.fst =
      multiplesOfFiveUpTo
        (summarize_all llmConstS allWritesOk allSavesOk
          (mkSummarizerState [] [] [] [] (some "llms.txt"))
          [{ source := "https://a.co/1", title := some "T", page_content := "b" },
           { source := "https://a.co/2", title := some "T", page_content := "b" },
           { source := "https://a.co/3", title := some "T", page_content := "b" },
           { source := "https://a.co/4", title := some "T", page_content := "b" },
           { source := "https://a.co/5", title := some "T", page_content := "b" }]).2.1.length ∧
    (5, false).2 = false :=
  ⟨C9_amended.1 llmConstS allWritesOk allSavesOk
      (mkSummarizerState [] [] [] [] (some "llms.txt"))
      [{ source := "https://a.co/1", title := some "T", page_content := "b" },
       { source := "https://a.co/2", title := some "T", page_content := "b" },
       { source := "https://a.co/3", title := some "T", page_content := "b" },
       { source := "https://a.co/4", title := some "T", page_content := "b" },
       { source := "https://a.co/5", title := some "T", page_content := "b" }],
   C9_amended.2 llmConstS allWritesOk allSavesOk
      (mkSummarizerState [] [] [] [] (some "llms.txt"))
      [{ source := "https://a.co/1", title := some "T", page_content := "b" },
       { source := "https://a.co/2", title := some "T", page_content := "b" },
       { source := "https://a.co/3", title := some "T", page_content := "b" },
       { source := "https://a.co/4", title := some "T", page_content := "b" },
       { source := "https://a.co/5", title := some "T", page_content := "b" }]
      rfl (5, false) (by decide)⟩

/-- C10: a file whose name does not end in `.txt`, or whose name equals the
output file's base name, is invisible to both merge strategies: adding it
to the output directory changes neither Strategy A's nor Strategy B's
output, whatever the rest of the directory holds.  In particular the
persisted log `summarized_urls.json` and the manifest itself are never
ingested as record files. -/
theorem C10_scan_filter (listing : List (String × String)) (outBase : String)
    (bl : List String) (summaries : List String) (file_structure : List String)
    (f : String × String)
    (h : pyEndsWith f.1 ".txt" = false ∨ f.1 = outBase) :
    generate_llms_txt summaries (f :: listing) outBase bl =
      generate_llms_txt summaries listing outBase bl ∧
    generate_structured_llms_txt summaries (f :: listing) outBase file_structure =
      generate_structured_llms_txt summaries listing outBase file_structure := by
  have hfilter : scanFilter outBase f = false := by
    rcases h with h1 | h1
    · simp [scanFilter, h1]
    · simp [scanFilter, h1]
  have hflt : (f :: listing).filter (scanFilter outBase) =
      listing.filter (scanFilter outBase) := by
    rw [List.filter_cons]
    simp [hfilter]
  constructor
  · simp only [generate_llms_txt, strategyA_entries, uniqueEntries, collectEntries,
      hflt]
  · simp only [generate_structured_llms_txt, buildUrlToSummary, hflt]

/-- C10 witness: the log file and the manifest's own base name are ignored
by both strategies in a concrete directory state. -/
theorem C10_scan_filter_witness :
    (generate_llms_txt [] (("summarized_urls.json", "not a record") ::
        [("a.txt", "[A](https://a.co/x): xx\n\n")]) "llms.txt" [] =
      generate_llms_txt [] [("a.txt", "[A](https://a.co/x): xx\n\n")] "llms.txt" [] ∧
     generate_structured_llms_txt [] (("summarized_urls.json", "not a record") ::
        [("a.txt", "[A](https://a.co/x): xx\n\n")]) "llms.txt"
        ["[A](https://a.co/x): old\n"] =
      generate_structured_llms_txt [] [("a.txt", "[A](https://a.co/x): xx\n\n")]
        "llms.txt" ["[A](https://a.co/x): old\n"]) ∧
    (generate_llms_txt [] (("llms.txt", "[Z](https://z.co/m): manifest\n\n") ::
        [("a.txt", "[A](https://a.co/x): xx\n\n")]) "llms.txt" [] =
      generate_llms_txt [] [("a.txt", "[A](https://a.co/x): xx\n\n")] "llms.txt" [] ∧
     generate_structured_llms_txt [] (("llms.txt", "[Z](https://z.co/m): manifest\n\n") ::
        [("a.txt", "[A](https://a.co/x): xx\n\n")]) "llms.txt"
        ["[A](https://a.co/x): old\n"] =
      generate_structured_llms_txt [] [("a.txt", "[A](https://a.co/x): xx\n\n")]
        "llms.txt" ["[A](https://a.co/x): old\n"]) :=
  ⟨C10_scan_filter [("a.txt", "[A](https://a.co/x): xx\n\n")] "llms.txt" [] []
      ["[A](https://a.co/x): old\n"] ("summarized_urls.json", "not a record")
      (Or.inl (by decide)),
   C10_scan_filter [("a.txt", "[A](https://a.co/x): xx\n\n")] "llms.txt" [] []
      ["[A](https://a.co/x): old\n"] ("llms.txt", "[Z](https://z.co/m): manifest\n\n")
      (Or.inr rfl)⟩

/-- C7: how the final merge of main.py behaves for each way the
summarization loop can end.  On normal completion the merge runs with the
returned summaries, on a caught exception it runs with an empty summary
list (Strategy A ignores the argument anyway; Strategy B falls back to the
on-disk record files), but on an external interrupt — which
`except Exception` does not catch — the `finally` block's reference to the
never-assigned local `summaries` raises `UnboundLocalError` and no merge
is executed, contradicting the code's own comment at main.py line 130
("Always generate the final output file, even if interrupted"). -/
theorem C7_interrupt_no_merge :
    (∀ (summaries : List String) (listing : List (String × String))
        (outBase : String) (bl : List String) (u : Bool)
        (fs : Option (List String)),
      main_generate_llms_txt (LoopOutcome.completed summaries) listing outBase bl
        u fs ≠ none ∧
      main_generate_llms_txt LoopOutcome.exnFailure listing outBase bl u fs ≠ none ∧
      main_generate_llms_txt LoopOutcome.interrupted listing outBase bl u fs = none) ∧
    main_generate_llms_txt LoopOutcome.interrupted
      [("a.txt", "[A](https://a.co/x): xx\n\n")] "llms.txt" [] true
      (some ["# Docs\n", "[A](https://a.co/x): old\n"]) = none := by
  constructor
  · intro summaries listing outBase bl u fs
    refine ⟨?_, ?_, rfl⟩
    · simp [main_generate_llms_txt]
    · simp [main_generate_llms_txt]
  · rfl
